import Mathlib

/-!
# Retail Digital Twin Command Center — verification of the state core

Shallow embedding of the state-management core of `src/App.tsx` (the
WebSocket-to-state reconciliation function `processWebSocketData`, the
per-frame simulation function `updateSimulation`, the store-change reset
effect, and the `ws.onmessage` handler), together with the data model of
`src/types.ts`.

Conventions of the embedding:
* JavaScript numbers that carry positions, angles and accumulator values are
  modelled as exact rationals (`ℚ`); upstream counters and wall-clock
  timestamps (`Date.now()`) as `ℕ`.
* The `heading` field of an inbound person record stands for the value
  `atan2(orientation[1], orientation[0]) * 180 / π` that the source computes
  from the orientation 2-vector; the transcendental conversion itself is kept
  as an input value because no property inspects its numeric value — the code
  only copies it into the customer's `angle` field.
* The mutable `Map` `entryTimesRef` is modelled as a function
  `String → Option ℕ`; the heatmap `Float32Array` as a function `ℕ → ℚ`
  guarded by the same bounds check the source performs before indexing.
* React's functional state updates (`setCustomers(prev => …)`,
  `setDailyStats(prev => …)`) are applied in program order, which matches
  React's sequential processing of functional updaters.
-/

namespace RetailTwin

/-- `Point` from `src/types.ts`: `{x, y}` in floor-plan units. -/
structure Point where
  x : ℚ
  y : ℚ
deriving DecidableEq, Repr

/-- `AgentState` from `src/types.ts`. -/
inductive AgentState
  | WALKING
  | BROWSING
  | EXITING
deriving DecidableEq, Repr

/-- `Gender` from `src/types.ts`. -/
inductive Gender
  | MALE
  | FEMALE
deriving DecidableEq, Repr

/-- `Customer` from `src/types.ts`. -/
structure Customer where
  id : String
  pos : Point
  target : Point
  targetId : String
  state : AgentState
  angle : ℚ
  speed : ℚ
  browsingTimer : ℚ
  dwellStartTime : ℚ
  totalStartTime : ℚ
  hasCountedForZone : Bool
  path : List Point
  color : String
  gender : Gender
  age : String
deriving DecidableEq, Repr

/-- `PlanData` from `src/types.ts`. `position` is the decoded
`{x: position[0], y: position[1]}` point and `heading` the decoded
degree angle computed by the source from the `orientation` 2-vector
(`atan2(orientation[1], orientation[0]) * 180 / π`); `bbox` is unused by the
state core and omitted. -/
structure PlanData where
  age : String
  gender : String
  track_id : String
  heading : ℚ
  position : Point
deriving DecidableEq, Repr

/-- `WebSocketResponse` from `src/types.ts` (`video_image` is only used to set
the live camera image, which is outside the state core, and is omitted). -/
structure WebSocketResponse where
  area : String
  entry_number : ℕ
  short_dwell_number : ℕ
  plan_data : List PlanData
deriving DecidableEq, Repr

/-- `WebSocketMessage` from `src/types.ts`; `data` is `Option` because the
handler checks `message.data` for presence. -/
structure WebSocketMessage where
  type : String
  deviceId : String
  data : Option WebSocketResponse
deriving DecidableEq, Repr

/-- The facility geometry the state core reads from `StoreConfig`
(`src/constants.ts`): only `width` and `height` feed the grid dimensions. -/
structure StoreConfig where
  id : String
  width : ℚ
  height : ℚ
deriving DecidableEq, Repr

/-- The `dailyStats` state object of `App`. -/
structure DailyStats where
  totalCustomers : ℕ
  quickExits : ℕ
  femaleCount : ℕ
  maleCount : ℕ
  totalDwellTimeMs : ℕ
  completedVisits : ℕ
deriving DecidableEq, Repr

/-- The `entryTimesRef` map: track id → wall-clock entry time (ms). -/
abbrev EntryMap := String → Option ℕ

/-- The mutable state of `App` that the state core owns: the active store,
the live customers, the daily statistics, the heatmap accumulator and the
entry-time map. -/
structure AppState where
  store : StoreConfig
  customers : List Customer
  stats : DailyStats
  heat : ℕ → ℚ
  entryTimes : EntryMap

/-- `GRID_SIZE` constant of `src/App.tsx`. -/
def GRID_SIZE : ℚ := 25

/-- `String.prototype.toLowerCase()` of the source, as a per-character map
over the string's characters (for the ASCII gender strings the two coincide;
defined structurally so that it evaluates by kernel reduction). -/
def toLowerStr (s : String) : String := ⟨s.data.map Char.toLower⟩

/-- Gender decoding in `processWebSocketData`:
`p.gender.toLowerCase() === 'female' ? Gender.FEMALE : Gender.MALE`. -/
def genderOf (g : String) : Gender :=
  if toLowerStr g = "female" then Gender.FEMALE else Gender.MALE

/-- Colour choice in `processWebSocketData`:
`gender === Gender.FEMALE ? '#ec4899' : '#06b6d4'`. -/
def colorOf (g : Gender) : String :=
  if g = Gender.FEMALE then "#ec4899" else "#06b6d4"

/-- Step 2 of `processWebSocketData`: the `setDailyStats` functional update.
`totalCustomers`/`quickExits` adopt the upstream counter only when it is
positive; female/male counts are recomputed from the snapshot. -/
def updateStats (d : WebSocketResponse) (prev : DailyStats) : DailyStats :=
  let currentFemales := (d.plan_data.filter (fun p => toLowerStr p.gender = "female")).length
  let currentMales := (d.plan_data.filter (fun p => toLowerStr p.gender = "male")).length
  { prev with
    totalCustomers := if 0 < d.entry_number then d.entry_number else prev.totalCustomers
    quickExits := if 0 < d.short_dwell_number then d.short_dwell_number else prev.quickExits
    femaleCount := currentFemales
    maleCount := currentMales }

/-- The new-customer record built in the `else` branch of the per-person loop
of `processWebSocketData` (`nowPerf` is the `performance.now()` value bound to
`now` inside `setCustomers`). -/
def freshCustomer (p : PlanData) (nowPerf : ℚ) : Customer :=
  let g := genderOf p.gender
  { id := p.track_id
    pos := p.position
    target := p.position
    targetId := "unknown"
    state := AgentState.WALKING
    angle := p.heading
    speed := 0
    browsingTimer := 0
    dwellStartTime := nowPerf
    totalStartTime := nowPerf
    hasCountedForZone := false
    path := [p.position]
    color := colorOf g
    gender := g
    age := p.age }

/-- The update of an existing customer in the `if (existing)` branch of the
per-person loop of `processWebSocketData`:
`{ ...existing, target, angle, age, state: AgentState.WALKING }`. -/
def updateExisting (c : Customer) (p : PlanData) : Customer :=
  { c with
    target := p.position
    angle := p.heading
    age := p.age
    state := AgentState.WALKING }

/-- One iteration of the `data.plan_data.forEach` loop of
`processWebSocketData`: look up the person's id in the previous customer list
(`prevCustomers.find`), push either the updated existing record or a fresh
one, and record the entry time for ids not already in `entryTimesRef`. -/
def mergeStep (prev : List Customer) (nowPerf : ℚ) (nowWall : ℕ)
    (acc : List Customer × EntryMap) (p : PlanData) : List Customer × EntryMap :=
  match prev.find? (fun c => c.id == p.track_id) with
  | some existing => (acc.1 ++ [updateExisting existing p], acc.2)
  | none =>
      let em : EntryMap :=
        if (acc.2 p.track_id).isNone then
          fun s => if s = p.track_id then some nowWall else acc.2 s
        else acc.2
      (acc.1 ++ [freshCustomer p nowPerf], em)

/-- One iteration of the exit-handling loop of `processWebSocketData`
(`prevCustomers.forEach`): a previous customer whose id is not in `activeIds`
is retired — if its entry time is recorded (and truthy, i.e. non-zero), add
the dwell duration and one completed visit to the statistics and delete the
map entry. -/
def retireStep (activeIds : List String) (nowWall : ℕ)
    (acc : DailyStats × EntryMap) (c : Customer) : DailyStats × EntryMap :=
  if c.id ∈ activeIds then acc
  else
    match acc.2 c.id with
    | some t =>
        if t ≠ 0 then
          ({ acc.1 with
              totalDwellTimeMs := acc.1.totalDwellTimeMs + (nowWall - t)
              completedVisits := acc.1.completedVisits + 1 },
           fun s => if s = c.id then none else acc.2 s)
        else acc
    | none => acc

/-- `processWebSocketData` of `src/App.tsx` (state core part: the statistics
update, the per-person merge loop and the exit-handling loop; the live-image
update is presentation-only and omitted). `nowPerf` is `performance.now()`,
`nowWall` is `Date.now()`. -/
def processWebSocketData (d : WebSocketResponse) (nowPerf : ℚ) (nowWall : ℕ)
    (st : AppState) : AppState :=
  let stats1 := updateStats d st.stats
  let activeIds := d.plan_data.map (·.track_id)
  let merged := d.plan_data.foldl (mergeStep st.customers nowPerf nowWall) ([], st.entryTimes)
  let retired := st.customers.foldl (retireStep activeIds nowWall) (stats1, merged.2)
  { st with customers := merged.1, stats := retired.1, entryTimes := retired.2 }

/-- Squared Euclidean distance between two points; the source compares
`Math.sqrt(dx² + dy²) > 30`, equivalent to `dx² + dy² > 900`. -/
def distSq (a b : Point) : ℚ := (a.x - b.x) ^ 2 + (a.y - b.y) ^ 2

/-- `path.slice(-15)`: the last `n` elements of a list. -/
def takeLast (n : ℕ) (l : List Point) : List Point := l.drop (l.length - n)

/-- The occasional path update of `updateSimulation`:
`if (path.length === 0 || Math.sqrt(…) > 30) path = [...path.slice(-15), pos]`.
The empty check is expressed through `getLast?` (`getLast? = none` exactly when
the list is empty), mirroring that the last element is only read when the list
is non-empty; `sqrt(d) > 30` is expressed as `d > 900` (both sides
non-negative). -/
def updatePath (pos : Point) (path : List Point) : List Point :=
  match path.getLast? with
  | none => takeLast 15 path ++ [pos]
  | some lp => if 900 < distSq pos lp then takeLast 15 path ++ [pos] else path

/-- The per-customer body of the `prev.map` inside `updateSimulation`:
lerp the position 15% toward the target when either axis displacement
exceeds 0.5, and append to the path when it is empty or the new position is
more than 30 units from its last point. The position update does not depend
on the frame delta `dt`. -/
def stepCustomer (c : Customer) : Customer :=
  let dx := c.target.x - c.pos.x
  let dy := c.target.y - c.pos.y
  if 1/2 < |dx| ∨ 1/2 < |dy| then
    let pos : Point := ⟨c.pos.x + dx * (3/20), c.pos.y + dy * (3/20)⟩
    { c with pos := pos, path := updatePath pos c.path }
  else
    { c with pos := c.pos, path := c.path }

/-- Grid cell of a position in `updateSimulation`: `Math.floor(pos/GRID_SIZE)`
per axis, accepted only inside `[0, COLS) × [0, ROWS)` with
`COLS = ceil(width/GRID_SIZE)`, `ROWS = ceil(height/GRID_SIZE)`; the flat
index is `gridY * COLS + gridX`. (The additional `!== undefined` check of the
source is implied by this bounds check, since the accumulator array has
exactly `COLS * ROWS` entries.) -/
def cellIndex (store : StoreConfig) (p : Point) : Option ℕ :=
  let gridX : ℤ := ⌊p.x / GRID_SIZE⌋
  let gridY : ℤ := ⌊p.y / GRID_SIZE⌋
  let cols : ℤ := ⌈store.width / GRID_SIZE⌉
  let rows : ℤ := ⌈store.height / GRID_SIZE⌉
  if 0 ≤ gridX ∧ gridX < cols ∧ 0 ≤ gridY ∧ gridY < rows then
    some (gridY * cols + gridX).toNat
  else none

/-- The heatmap write of `updateSimulation`: an in-bounds customer position
adds `0.02 * dt` to its cell's accumulator; out-of-bounds positions are
skipped. -/
def bumpHeat (store : StoreConfig) (dt : ℚ) (heat : ℕ → ℚ) (p : Point) : ℕ → ℚ :=
  match cellIndex store p with
  | some idx => fun i => if i = idx then heat i + (1/50) * dt else heat i
  | none => heat

/-- `updateSimulation` of `src/App.tsx` (state core part: the `setCustomers`
map and the heatmap accumulation; the periodic heatmap snapshot publication
and the `requestAnimationFrame` re-scheduling are outside the state).
`dt` is the elapsed-frames value `(time - lastTimeRef.current) / 16.67`. -/
def updateSimulation (dt : ℚ) (st : AppState) : AppState :=
  let newCustomers := st.customers.map stepCustomer
  let newHeat := newCustomers.foldl (fun h c => bumpHeat st.store dt h c.pos) st.heat
  { st with customers := newCustomers, heat := newHeat }

/-- The store-change reset effect of `App` (`useEffect` on `currentStoreIdx`):
a fresh zero heatmap accumulator sized for the new store and an empty customer
list; `entryTimesRef` and `dailyStats` are not touched by this effect. -/
def switchStore (st : AppState) (newStore : StoreConfig) : AppState :=
  { st with store := newStore, heat := fun _ => 0, customers := [] }

/-- The `ws.onmessage` handler: `none` stands for a payload on which
`JSON.parse` throws (the `catch` swallows it); a parsed message is processed
only when its wrapper type is `'device_data'` and `message.data` is present. -/
def handleMessage (raw : Option WebSocketMessage) (nowPerf : ℚ) (nowWall : ℕ)
    (st : AppState) : AppState :=
  match raw with
  | none => st
  | some m =>
      match m.data with
      | some d => if m.type = "device_data" then processWebSocketData d nowPerf nowWall st else st
      | none => st

/-- Sequential processing of a stream of inbound messages, each tagged with
its `performance.now()` / `Date.now()` values. -/
def processMessages (msgs : List (Option WebSocketMessage × ℚ × ℕ)) (st : AppState) : AppState :=
  msgs.foldl (fun s m => handleMessage m.1 m.2.1 m.2.2 s) st

/-! ## Sample data (used by witnesses and counterexamples) -/

/-- An empty initial application state over the first store of
`src/constants.ts` (only `width`/`height` matter to the state core). -/
def st0 : AppState :=
  { store := ⟨"coldroom1", 1516, 1016⟩
    customers := []
    stats := ⟨0, 0, 0, 0, 0, 0⟩
    heat := fun _ => 0
    entryTimes := fun _ => none }

/-- A customer away from its target (displacement 10 on the x axis). -/
def cMoveSample : Customer :=
  { id := "m", pos := ⟨0, 0⟩, target := ⟨10, 0⟩, targetId := "unknown"
    state := AgentState.WALKING, angle := 0, speed := 0, browsingTimer := 0
    dwellStartTime := 0, totalStartTime := 0, hasCountedForZone := false
    path := [⟨0, 0⟩], color := "#06b6d4", gender := Gender.MALE, age := "30" }

/-- A customer exactly at its target. -/
def cStillSample : Customer := { cMoveSample with target := ⟨0, 0⟩ }

/-- A customer 100 units from its target on the x axis. -/
def cC3 : Customer := { cMoveSample with target := ⟨100, 0⟩ }

/-- A state holding the single customer `cC3`. -/
def stC3 : AppState := { st0 with customers := [cC3] }

/-! ## Facts about the interpolation step -/

lemma stepCustomer_move (c : Customer)
    (h : 1/2 < |c.target.x - c.pos.x| ∨ 1/2 < |c.target.y - c.pos.y|) :
    stepCustomer c =
      { c with
        pos := ⟨c.pos.x + (c.target.x - c.pos.x) * (3/20),
                c.pos.y + (c.target.y - c.pos.y) * (3/20)⟩
        path := updatePath
          ⟨c.pos.x + (c.target.x - c.pos.x) * (3/20),
           c.pos.y + (c.target.y - c.pos.y) * (3/20)⟩ c.path } := by
  simp only [stepCustomer]
  rw [if_pos h]

lemma stepCustomer_frozen (c : Customer)
    (h : ¬(1/2 < |c.target.x - c.pos.x| ∨ 1/2 < |c.target.y - c.pos.y|)) :
    stepCustomer c = c := by
  simp only [stepCustomer]
  rw [if_neg h]

lemma stepCustomer_pos_move (c : Customer)
    (h : 1/2 < |c.target.x - c.pos.x| ∨ 1/2 < |c.target.y - c.pos.y|) :
    (stepCustomer c).pos.x = c.pos.x + (c.target.x - c.pos.x) * (3/20) ∧
    (stepCustomer c).pos.y = c.pos.y + (c.target.y - c.pos.y) * (3/20) := by
  rw [stepCustomer_move c h]
  exact ⟨rfl, rfl⟩

lemma takeLast_length_le (n : ℕ) (l : List Point) : (takeLast n l).length ≤ n := by
  simp only [takeLast, List.length_drop]
  omega

lemma updatePath_length (pos : Point) (path : List Point) (h : path.length ≤ 16) :
    (updatePath pos path).length ≤ 16 := by
  have ht := takeLast_length_le 15 path
  unfold updatePath
  split
  · simp only [List.length_append, List.length_cons, List.length_nil]
    omega
  · split
    · simp only [List.length_append, List.length_cons, List.length_nil]
      omega
    · exact h

lemma updatePath_append_cond (pos : Point) (path : List Point)
    (hne : updatePath pos path ≠ path) :
    path = [] ∨ ∃ lp, path.getLast? = some lp ∧ 900 < distSq pos lp := by
  unfold updatePath at hne
  split at hne
  · rename_i hgl
    exact Or.inl (List.getLast?_eq_none_iff.mp hgl)
  · rename_i lp hgl
    split at hne
    · rename_i hd
      exact Or.inr ⟨lp, hgl, hd⟩
    · exact absurd rfl hne

lemma stepCustomer_path_length (c : Customer) (h : c.path.length ≤ 16) :
    (stepCustomer c).path.length ≤ 16 := by
  by_cases hmv : 1/2 < |c.target.x - c.pos.x| ∨ 1/2 < |c.target.y - c.pos.y|
  · rw [stepCustomer_move c hmv]
    exact updatePath_length _ _ h
  · rw [stepCustomer_frozen c hmv]
    exact h

/-! ## Claim theorems -/

/-- **C2**: for every entity with a fixed target, one interpolation step
strictly decreases the (squared) distance to the target whenever either axis
displacement exceeds 0.5; once both axis displacements are at most 0.5 the
display position is exactly frozen on every further step; and no step
overshoots (per axis, the displacement never grows and never flips sign). -/
theorem interpolation_monotone_convergence (c : Customer) :
    ((1/2 < |c.target.x - c.pos.x| ∨ 1/2 < |c.target.y - c.pos.y|) →
        distSq (stepCustomer c).pos c.target < distSq c.pos c.target) ∧
    ((|c.target.x - c.pos.x| ≤ 1/2 ∧ |c.target.y - c.pos.y| ≤ 1/2) →
        ∀ n : ℕ, (stepCustomer^[n] c).pos = c.pos) ∧
    (|c.target.x - (stepCustomer c).pos.x| ≤ |c.target.x - c.pos.x| ∧
      |c.target.y - (stepCustomer c).pos.y| ≤ |c.target.y - c.pos.y|) ∧
    (0 ≤ (c.target.x - (stepCustomer c).pos.x) * (c.target.x - c.pos.x) ∧
      0 ≤ (c.target.y - (stepCustomer c).pos.y) * (c.target.y - c.pos.y)) := by
  refine ⟨?_, ?_, ?_, ?_⟩
  · intro h
    obtain ⟨hx, hy⟩ := stepCustomer_pos_move c h
    have hpos : 0 < (c.target.x - c.pos.x) ^ 2 + (c.target.y - c.pos.y) ^ 2 := by
      rcases h with h | h
      · nlinarith [sq_abs (c.target.x - c.pos.x), sq_nonneg (c.target.y - c.pos.y),
          abs_nonneg (c.target.x - c.pos.x)]
      · nlinarith [sq_abs (c.target.y - c.pos.y), sq_nonneg (c.target.x - c.pos.x),
          abs_nonneg (c.target.y - c.pos.y)]
    simp only [distSq, hx, hy]
    nlinarith [hpos]
  · intro h n
    have hfrozen : stepCustomer c = c := by
      apply stepCustomer_frozen
      push_neg
      exact h
    rw [Function.iterate_fixed hfrozen]
  · by_cases h : 1/2 < |c.target.x - c.pos.x| ∨ 1/2 < |c.target.y - c.pos.y|
    · obtain ⟨hx, hy⟩ := stepCustomer_pos_move c h
      constructor
      · rw [hx, show c.target.x - (c.pos.x + (c.target.x - c.pos.x) * (3/20))
            = (17/20) * (c.target.x - c.pos.x) from by ring, abs_mul,
          show |(17/20 : ℚ)| = 17/20 from by norm_num]
        nlinarith [abs_nonneg (c.target.x - c.pos.x)]
      · rw [hy, show c.target.y - (c.pos.y + (c.target.y - c.pos.y) * (3/20))
            = (17/20) * (c.target.y - c.pos.y) from by ring, abs_mul,
          show |(17/20 : ℚ)| = 17/20 from by norm_num]
        nlinarith [abs_nonneg (c.target.y - c.pos.y)]
    · rw [stepCustomer_frozen c h]
      exact ⟨le_refl _, le_refl _⟩
  · by_cases h : 1/2 < |c.target.x - c.pos.x| ∨ 1/2 < |c.target.y - c.pos.y|
    · obtain ⟨hx, hy⟩ := stepCustomer_pos_move c h
      constructor
      · rw [hx]
        nlinarith [sq_nonneg (c.target.x - c.pos.x)]
      · rw [hy]
        nlinarith [sq_nonneg (c.target.y - c.pos.y)]
    · rw [stepCustomer_frozen c h]
      exact ⟨mul_self_nonneg _, mul_self_nonneg _⟩

/-- Witness for C2 at concrete inputs: a customer 10 units from its target
moves strictly closer, and a customer at its target is frozen for 5 steps. -/
theorem interpolation_monotone_convergence_witness :
    ((1/2 : ℚ) < |cMoveSample.target.x - cMoveSample.pos.x| ∨
      (1/2 : ℚ) < |cMoveSample.target.y - cMoveSample.pos.y|) ∧
    distSq (stepCustomer cMoveSample).pos cMoveSample.target
      < distSq cMoveSample.pos cMoveSample.target ∧
    (|cStillSample.target.x - cStillSample.pos.x| ≤ (1/2 : ℚ) ∧
      |cStillSample.target.y - cStillSample.pos.y| ≤ (1/2 : ℚ)) ∧
    (stepCustomer^[5] cStillSample).pos = cStillSample.pos :=
  ⟨by norm_num [cMoveSample],
   (interpolation_monotone_convergence cMoveSample).1 (by norm_num [cMoveSample]),
   by norm_num [cStillSample, cMoveSample],
   (interpolation_monotone_convergence cStillSample).2.1
     (by norm_num [cStillSample, cMoveSample]) 5⟩

/-- **C3 counterexample**: with `elapsedFrames = 2`, an entity at `(0,0)`
targeting `(100,0)` moves to `x = 15` (`0.15 × 100`), not to the
`0.15 × 100 × 2 = 30` the claim's dt-scaling would require. -/
theorem lerp_not_dt_scaled :
    ((updateSimulation 2 stC3).customers.map fun c => c.pos.x) = [15] ∧
    ((updateSimulation 2 stC3).customers.map fun c => c.pos.x)
      ≠ [0 + (3/20) * (100 - 0) * 2] := by
  have hmv : 1/2 < |cC3.target.x - cC3.pos.x| ∨ 1/2 < |cC3.target.y - cC3.pos.y| := by
    norm_num [cC3, cMoveSample]
  have hx := (stepCustomer_pos_move cC3 hmv).1
  have hmap : (updateSimulation 2 stC3).customers.map (fun c => c.pos.x)
      = [(stepCustomer cC3).pos.x] := rfl
  constructor
  · rw [hmap, hx]
    norm_num [cC3, cMoveSample]
  · rw [hmap, hx]
    norm_num [cC3, cMoveSample]

/-- **C3 (amended)**: the per-tick movement is `0.15 ×` the remaining
displacement, independent of `elapsedFrames`: the customer list after a tick
is the same for any two frame deltas, and past the 0.5 threshold the new
position is `pos + 0.15 × (target - pos)` with no `dt` factor. -/
theorem lerp_constant_fraction (dt1 dt2 : ℚ) (st : AppState) (c : Customer) :
    (updateSimulation dt1 st).customers = (updateSimulation dt2 st).customers ∧
    ((1/2 < |c.target.x - c.pos.x| ∨ 1/2 < |c.target.y - c.pos.y|) →
      (stepCustomer c).pos.x = c.pos.x + (3/20) * (c.target.x - c.pos.x) ∧
      (stepCustomer c).pos.y = c.pos.y + (3/20) * (c.target.y - c.pos.y)) := by
  constructor
  · rfl
  · intro h
    obtain ⟨hx, hy⟩ := stepCustomer_pos_move c h
    exact ⟨by rw [hx]; ring, by rw [hy]; ring⟩

/-- Witness for C3's amended theorem at a concrete input. -/
theorem lerp_constant_fraction_witness :
    ((1/2 : ℚ) < |cMoveSample.target.x - cMoveSample.pos.x| ∨
      (1/2 : ℚ) < |cMoveSample.target.y - cMoveSample.pos.y|) ∧
    (updateSimulation 1 st0).customers = (updateSimulation 7 st0).customers ∧
    (stepCustomer cMoveSample).pos.x
      = cMoveSample.pos.x + (3/20) * (cMoveSample.target.x - cMoveSample.pos.x) :=
  ⟨by norm_num [cMoveSample],
   (lerp_constant_fraction 1 7 st0 cMoveSample).1,
   ((lerp_constant_fraction 1 7 st0 cMoveSample).2 (by norm_num [cMoveSample])).1⟩

/-- **C7**: starting from a trail of at most 16 points, the trail still has at
most 16 points after any number of ticks; and a tick changes the trail only
when it was empty or the new display position is more than 30 units
(squared distance more than 900) from its last point. -/
theorem trail_bounded (c : Customer) (h : c.path.length ≤ 16) :
    (∀ n : ℕ, (stepCustomer^[n] c).path.length ≤ 16) ∧
    ((stepCustomer c).path ≠ c.path →
      (c.path = [] ∨ ∃ lp, c.path.getLast? = some lp ∧
        900 < distSq (stepCustomer c).pos lp)) := by
  constructor
  · intro n
    induction n with
    | zero => exact h
    | succ n ih =>
        rw [Function.iterate_succ_apply']
        exact stepCustomer_path_length _ ih
  · intro hne
    by_cases hmv : 1/2 < |c.target.x - c.pos.x| ∨ 1/2 < |c.target.y - c.pos.y|
    · have hpath : (stepCustomer c).path = updatePath (stepCustomer c).pos c.path := by
        rw [stepCustomer_move c hmv]
      rw [hpath] at hne
      exact updatePath_append_cond _ _ hne
    · rw [stepCustomer_frozen c hmv] at hne
      exact absurd rfl hne

/-- Witness for C7 at a concrete input: a one-point trail stays within the
16-point bound after 20 ticks. -/
theorem trail_bounded_witness :
    cMoveSample.path.length ≤ 16 ∧
    (stepCustomer^[20] cMoveSample).path.length ≤ 16 :=
  ⟨by decide, (trail_bounded cMoveSample (by decide)).1 20⟩

/-! ## Facts about the merge -/

lemma find?_id_eq {cs : List Customer} {sid : String} {c : Customer}
    (h : cs.find? (fun c0 => c0.id == sid) = some c) : c.id = sid := by
  simpa using List.find?_some h

lemma mergeStep_existing {prev : List Customer} {p : PlanData} {c : Customer}
    (hf : prev.find? (fun c0 => c0.id == p.track_id) = some c)
    (nowP : ℚ) (nowW : ℕ) (acc : List Customer × EntryMap) :
    mergeStep prev nowP nowW acc p = (acc.1 ++ [updateExisting c p], acc.2) := by
  unfold mergeStep
  rw [hf]

lemma mergeStep_new {prev : List Customer} {p : PlanData}
    (hf : prev.find? (fun c0 => c0.id == p.track_id) = none)
    (nowP : ℚ) (nowW : ℕ) (acc : List Customer × EntryMap) :
    mergeStep prev nowP nowW acc p
      = (acc.1 ++ [freshCustomer p nowP],
         if (acc.2 p.track_id).isNone then
           fun s => if s = p.track_id then some nowW else acc.2 s
         else acc.2) := by
  unfold mergeStep
  rw [hf]

lemma mergeFold_customers_ids (prev : List Customer) (nowP : ℚ) (nowW : ℕ) :
    ∀ (l : List PlanData) (acc : List Customer) (em : EntryMap),
      ((l.foldl (mergeStep prev nowP nowW) (acc, em)).1).map (·.id)
        = acc.map (·.id) ++ l.map (·.track_id) := by
  intro l
  induction l with
  | nil =>
      intro acc em
      simp
  | cons p l ih =>
      intro acc em
      rw [List.foldl_cons]
      cases hf : prev.find? (fun c0 => c0.id == p.track_id) with
      | some c =>
          rw [mergeStep_existing hf, ih]
          simp [updateExisting, find?_id_eq hf]
      | none =>
          rw [mergeStep_new hf, ih]
          simp [freshCustomer]

/-- Definitional reading of the customer list produced by one merge. -/
lemma processWebSocketData_customers (u : WebSocketResponse) (nowP : ℚ) (nowW : ℕ)
    (st : AppState) :
    (processWebSocketData u nowP nowW st).customers
      = (u.plan_data.foldl (mergeStep st.customers nowP nowW) ([], st.entryTimes)).1 := rfl

/-- Definitional reading of the statistics produced by one merge. -/
lemma processWebSocketData_stats (u : WebSocketResponse) (nowP : ℚ) (nowW : ℕ)
    (st : AppState) :
    (processWebSocketData u nowP nowW st).stats
      = (st.customers.foldl (retireStep (u.plan_data.map (·.track_id)) nowW)
          (updateStats u st.stats,
            (u.plan_data.foldl (mergeStep st.customers nowP nowW) ([], st.entryTimes)).2)).1 := rfl

/-- Definitional reading of the entry-time map produced by one merge. -/
lemma processWebSocketData_entryTimes (u : WebSocketResponse) (nowP : ℚ) (nowW : ℕ)
    (st : AppState) :
    (processWebSocketData u nowP nowW st).entryTimes
      = (st.customers.foldl (retireStep (u.plan_data.map (·.track_id)) nowW)
          (updateStats u st.stats,
            (u.plan_data.foldl (mergeStep st.customers nowP nowW) ([], st.entryTimes)).2)).2 := rfl

/-- The live ids after a merge are exactly the update's track ids, one per
record, in order (a duplicated track id therefore yields one live entity per
occurrence). -/
lemma processWebSocketData_ids (u : WebSocketResponse) (nowP : ℚ) (nowW : ℕ)
    (st : AppState) :
    (processWebSocketData u nowP nowW st).customers.map (·.id)
      = u.plan_data.map (·.track_id) := by
  rw [processWebSocketData_customers, mergeFold_customers_ids]
  simp

/-- A person record used by witnesses and counterexamples. -/
def pA : PlanData :=
  { age := "30", gender := "male", track_id := "a", heading := 0, position := ⟨5, 5⟩ }

/-- A second person record with a distinct id. -/
def pB : PlanData := { pA with track_id := "b" }

/-- An update naming two distinct ids. -/
def uAB : WebSocketResponse :=
  { area := "z", entry_number := 1, short_dwell_number := 0, plan_data := [pA, pB] }

/-- An update whose people list contains the same id twice. -/
def uDup : WebSocketResponse :=
  { area := "z", entry_number := 0, short_dwell_number := 0, plan_data := [pA, pA] }

/-- **C1 counterexample**: merging an update whose people list contains the id
`"a"` twice into the empty live set yields TWO live entities carrying `"a"` —
the live set's ids are not unique and no last-write-wins dedup happens. -/
theorem duplicate_ids_not_deduped :
    ((processWebSocketData uDup 0 100 st0).customers.map (·.id)) = ["a", "a"] ∧
    ¬(((processWebSocketData uDup 0 100 st0).customers.map (·.id)).Nodup) := by
  rw [processWebSocketData_ids]
  constructor
  · decide
  · decide

/-- **C1 (amended)**: provided each inbound update's people list carries
pairwise-distinct ids, after any merge — hence after every sequence of
merges — every live entity has a unique id (the merge emits exactly one
entity per update record, keyed by that record's id, and drops every entity
absent from the update). -/
theorem live_ids_unique (u : WebSocketResponse) (nowP : ℚ) (nowW : ℕ) (st : AppState)
    (h : (u.plan_data.map (·.track_id)).Nodup) :
    ((processWebSocketData u nowP nowW st).customers.map (·.id)).Nodup := by
  rw [processWebSocketData_ids]
  exact h

/-- Witness for C1's amended theorem at a concrete input. -/
theorem live_ids_unique_witness :
    ((uAB.plan_data.map (·.track_id)).Nodup) ∧
    ((processWebSocketData uAB 0 100 st0).customers.map (·.id)).Nodup :=
  ⟨by decide, live_ids_unique uAB 0 100 st0 (by decide)⟩

/-! ## Facts about the retirement fold and the counters -/

lemma retireStep_counters (a : List String) (n : ℕ) (acc : DailyStats × EntryMap)
    (c : Customer) :
    (retireStep a n acc c).1.totalCustomers = acc.1.totalCustomers ∧
    (retireStep a n acc c).1.quickExits = acc.1.quickExits := by
  unfold retireStep
  split
  · exact ⟨rfl, rfl⟩
  · split
    · split
      · exact ⟨rfl, rfl⟩
      · exact ⟨rfl, rfl⟩
    · exact ⟨rfl, rfl⟩

lemma retireFold_counters (a : List String) (n : ℕ) :
    ∀ (cs : List Customer) (acc : DailyStats × EntryMap),
      (cs.foldl (retireStep a n) acc).1.totalCustomers = acc.1.totalCustomers ∧
      (cs.foldl (retireStep a n) acc).1.quickExits = acc.1.quickExits := by
  intro cs
  induction cs with
  | nil =>
      intro acc
      exact ⟨rfl, rfl⟩
  | cons c cs ih =>
      intro acc
      rw [List.foldl_cons]
      obtain ⟨h1, h2⟩ := ih (retireStep a n acc c)
      obtain ⟨g1, g2⟩ := retireStep_counters a n acc c
      exact ⟨h1.trans g1, h2.trans g2⟩

/-- **C5**: on every merge, `totalCustomers` and `quickExits` become the
upstream-reported values exactly when those are non-zero, and otherwise keep
their previous values — so an upstream `entries = 0` after a previous
`entries = 42` leaves the aggregate at `42`. -/
theorem counters_adopt_iff_nonzero (st : AppState) (u : WebSocketResponse)
    (nowP : ℚ) (nowW : ℕ) :
    (processWebSocketData u nowP nowW st).stats.totalCustomers
      = (if u.entry_number ≠ 0 then u.entry_number else st.stats.totalCustomers) ∧
    (processWebSocketData u nowP nowW st).stats.quickExits
      = (if u.short_dwell_number ≠ 0 then u.short_dwell_number else st.stats.quickExits) := by
  rw [processWebSocketData_stats]
  constructor
  · rw [(retireFold_counters _ _ _ _).1]
    simp only [updateStats]
    rcases Nat.eq_zero_or_pos u.entry_number with h | h
    · simp [h]
    · simp [h, Nat.pos_iff_ne_zero.mp h]
  · rw [(retireFold_counters _ _ _ _).2]
    simp only [updateStats]
    rcases Nat.eq_zero_or_pos u.short_dwell_number with h | h
    · simp [h]
    · simp [h, Nat.pos_iff_ne_zero.mp h]

/-! ## Facts about the heatmap -/

lemma bumpHeat_le (store : StoreConfig) (dt : ℚ) (hdt : 0 ≤ dt)
    (heat : ℕ → ℚ) (p : Point) (i : ℕ) : heat i ≤ bumpHeat store dt heat p i := by
  unfold bumpHeat
  rcases hc : cellIndex store p with _ | idx
  · exact le_refl _
  · show heat i ≤ if i = idx then heat i + (1/50) * dt else heat i
    by_cases hi : i = idx
    · rw [if_pos hi]
      nlinarith
    · rw [if_neg hi]

lemma foldBump_le (store : StoreConfig) (dt : ℚ) (hdt : 0 ≤ dt) :
    ∀ (cs : List Customer) (heat : ℕ → ℚ) (i : ℕ),
      heat i ≤ (cs.foldl (fun h c => bumpHeat store dt h c.pos) heat) i := by
  intro cs
  induction cs with
  | nil =>
      intro heat i
      exact le_refl _
  | cons c cs ih =>
      intro heat i
      rw [List.foldl_cons]
      exact le_trans (bumpHeat_le store dt hdt heat c.pos i) (ih _ i)

/-- **C6**: with a non-negative frame delta, every heatmap cell is
non-decreasing across a tick (each in-bounds entity adds `0.02 × dt` to its
cell, and an out-of-bounds position leaves the accumulator untouched), and a
facility switch resets every cell to exactly 0. -/
theorem heatmap_monotone_until_switch (dt : ℚ) (st : AppState) (hdt : 0 ≤ dt) :
    (∀ i, st.heat i ≤ (updateSimulation dt st).heat i) ∧
    (∀ (ns : StoreConfig) (i : ℕ), (switchStore st ns).heat i = 0) ∧
    (∀ (heat : ℕ → ℚ) (p : Point), cellIndex st.store p = none →
      bumpHeat st.store dt heat p = heat) := by
  refine ⟨?_, ?_, ?_⟩
  · intro i
    exact foldBump_le st.store dt hdt (st.customers.map stepCustomer) st.heat i
  · intro ns i
    rfl
  · intro heat p hp
    unfold bumpHeat
    rw [hp]

/-- Witness for C6 at a concrete input. -/
theorem heatmap_monotone_until_switch_witness :
    (0 : ℚ) ≤ 1 ∧ st0.heat 0 ≤ (updateSimulation 1 st0).heat 0 :=
  ⟨by norm_num, (heatmap_monotone_until_switch 1 st0 (by norm_num)).1 0⟩

/-! ## Facts about the message handler -/

/-- **C8**: a malformed inbound message — an unparsable payload, a wrapper
whose type is not `'device_data'`, or one lacking a `data` field — leaves the
entire application state (live entities, heatmap, statistics, entry times)
exactly unchanged, and processing of subsequent messages is unaffected. -/
theorem malformed_message_dropped (raw : Option WebSocketMessage) (nowP : ℚ) (nowW : ℕ)
    (st : AppState) (rest : List (Option WebSocketMessage × ℚ × ℕ))
    (hbad : raw = none ∨ ∃ m, raw = some m ∧ (m.type ≠ "device_data" ∨ m.data = none)) :
    handleMessage raw nowP nowW st = st ∧
    processMessages ((raw, nowP, nowW) :: rest) st = processMessages rest st := by
  have h1 : handleMessage raw nowP nowW st = st := by
    rcases hbad with rfl | ⟨m, rfl, hm⟩
    · rfl
    · have hred : handleMessage (some m) nowP nowW st
          = match m.data with
            | some d => if m.type = "device_data" then processWebSocketData d nowP nowW st else st
            | none => st := rfl
      rcases hm with hm | hm
      · rw [hred]
        cases hd : m.data with
        | none => rfl
        | some d =>
            show (if m.type = "device_data" then processWebSocketData d nowP nowW st else st) = st
            rw [if_neg hm]
      · rw [hred, hm]
  have h2 : processMessages ((raw, nowP, nowW) :: rest) st
      = processMessages rest (handleMessage raw nowP nowW st) := rfl
  exact ⟨h1, by rw [h2, h1]⟩

/-- A message with the wrong wrapper type and no data field. -/
def badMsg : WebSocketMessage := { type := "status", deviceId := "d1", data := none }

/-- Witness for C8 at a concrete input. -/
theorem malformed_message_dropped_witness :
    ((some badMsg : Option WebSocketMessage) = none ∨
      ∃ m, (some badMsg : Option WebSocketMessage) = some m ∧
        (m.type ≠ "device_data" ∨ m.data = none)) ∧
    handleMessage (some badMsg) 0 5 st0 = st0 :=
  ⟨Or.inr ⟨badMsg, rfl, Or.inr rfl⟩,
   (malformed_message_dropped (some badMsg) 0 5 st0 []
     (Or.inr ⟨badMsg, rfl, Or.inr rfl⟩)).1⟩

/-! ## Facts about the entry-time map across a merge -/

lemma mergeFold_em_some (prev : List Customer) (nowP : ℚ) (nowW : ℕ) :
    ∀ (l : List PlanData) (acc : List Customer) (em : EntryMap) (sid : String) (T : ℕ),
      em sid = some T →
      ((l.foldl (mergeStep prev nowP nowW) (acc, em)).2) sid = some T := by
  intro l
  induction l with
  | nil =>
      intro acc em sid T h
      exact h
  | cons p l ih =>
      intro acc em sid T h
      rw [List.foldl_cons]
      cases hf : prev.find? (fun c0 => c0.id == p.track_id) with
      | some c =>
          rw [mergeStep_existing hf]
          exact ih _ _ _ _ h
      | none =>
          rw [mergeStep_new hf]
          apply ih
          by_cases hn : (em p.track_id).isNone
          · rw [if_pos hn]
            have hs : sid ≠ p.track_id := by
              intro heq
              rw [heq] at h
              rw [h] at hn
              simp at hn
            show (if sid = p.track_id then some nowW else em sid) = some T
            rw [if_neg hs]
            exact h
          · rw [if_neg hn]
            exact h

lemma mergeFold_em_find (prev : List Customer) (nowP : ℚ) (nowW : ℕ) (sid : String)
    (hs : (prev.find? (fun c0 => c0.id == sid)).isSome = true) :
    ∀ (l : List PlanData) (acc : List Customer) (em : EntryMap),
      ((l.foldl (mergeStep prev nowP nowW) (acc, em)).2) sid = em sid := by
  intro l
  induction l with
  | nil =>
      intro acc em
      rfl
  | cons p l ih =>
      intro acc em
      rw [List.foldl_cons]
      cases hf : prev.find? (fun c0 => c0.id == p.track_id) with
      | some c =>
          rw [mergeStep_existing hf]
          exact ih _ _
      | none =>
          rw [mergeStep_new hf, ih]
          by_cases hn : (em p.track_id).isNone
          · rw [if_pos hn]
            have hne : sid ≠ p.track_id := by
              intro heq
              rw [heq, hf] at hs
              simp at hs
            show (if sid = p.track_id then some nowW else em sid) = em sid
            rw [if_neg hne]
          · rw [if_neg hn]

/-! ## Facts about the retirement fold -/

lemma retireStep_mem {a : List String} {c : Customer} (h : c.id ∈ a)
    (n : ℕ) (acc : DailyStats × EntryMap) : retireStep a n acc c = acc := by
  unfold retireStep
  rw [if_pos h]

lemma retireFold_all_mem (a : List String) (n : ℕ) :
    ∀ (cs : List Customer) (acc : DailyStats × EntryMap),
      (∀ c ∈ cs, c.id ∈ a) → cs.foldl (retireStep a n) acc = acc := by
  intro cs
  induction cs with
  | nil =>
      intro acc _
      rfl
  | cons c cs ih =>
      intro acc h
      rw [List.foldl_cons, retireStep_mem (h c (List.mem_cons_self c cs)) n acc]
      exact ih acc (fun c' hc' => h c' (List.mem_cons_of_mem c hc'))

lemma retireStep_absent {a : List String} {c : Customer} (h : c.id ∉ a)
    (n : ℕ) (acc : DailyStats × EntryMap) {t : ℕ} (ht : acc.2 c.id = some t)
    (htn : t ≠ 0) :
    retireStep a n acc c
      = ({ acc.1 with
            totalDwellTimeMs := acc.1.totalDwellTimeMs + (n - t)
            completedVisits := acc.1.completedVisits + 1 },
         fun s => if s = c.id then none else acc.2 s) := by
  unfold retireStep
  rw [if_neg h, ht]
  show (if t ≠ 0 then
      ({ acc.1 with
          totalDwellTimeMs := acc.1.totalDwellTimeMs + (n - t)
          completedVisits := acc.1.completedVisits + 1 },
       fun s => if s = c.id then none else acc.2 s)
    else acc) = _
  rw [if_pos htn]

lemma retireFold_em_mem (a : List String) (n : ℕ) (sid : String) (hs : sid ∈ a) :
    ∀ (cs : List Customer) (acc : DailyStats × EntryMap),
      ((cs.foldl (retireStep a n) acc).2) sid = acc.2 sid := by
  intro cs
  induction cs with
  | nil =>
      intro acc
      rfl
  | cons c cs ih =>
      intro acc
      rw [List.foldl_cons, ih]
      unfold retireStep
      split
      · rfl
      · rename_i hc
        split
        · rename_i t ht
          split
          · show (if sid = c.id then none else acc.2 sid) = acc.2 sid
            have hne : sid ≠ c.id := fun heq => hc (heq ▸ hs)
            rw [if_neg hne]
          · rfl
        · rfl

/-- **C4**: a live entity with recorded (positive) entry time `T0` whose id is
absent from the update — while every other live entity stays present — is
retired by that merge: `completedVisits` grows by exactly 1,
`totalDwellTimeMs` by exactly `now - T0`, and the id leaves the live set. -/
theorem retirement_correct (st : AppState) (u : WebSocketResponse) (nowP : ℚ) (nowW : ℕ)
    (c : Customer) (T0 : ℕ)
    (hmem : c ∈ st.customers)
    (hnodup : (st.customers.map (·.id)).Nodup)
    (hentry : st.entryTimes c.id = some T0)
    (hT0 : T0 ≠ 0)
    (habsent : c.id ∉ u.plan_data.map (·.track_id))
    (hothers : ∀ c' ∈ st.customers, c'.id ≠ c.id → c'.id ∈ u.plan_data.map (·.track_id)) :
    (processWebSocketData u nowP nowW st).stats.completedVisits
      = st.stats.completedVisits + 1 ∧
    (processWebSocketData u nowP nowW st).stats.totalDwellTimeMs
      = st.stats.totalDwellTimeMs + (nowW - T0) ∧
    c.id ∉ (processWebSocketData u nowP nowW st).customers.map (·.id) := by
  obtain ⟨cs1, cs2, hsplit⟩ := List.append_of_mem hmem
  have hmapsplit : st.customers.map (·.id) = cs1.map (·.id) ++ c.id :: cs2.map (·.id) := by
    rw [hsplit]
    simp
  have hnd := hnodup
  rw [hmapsplit, List.nodup_append] at hnd
  obtain ⟨-, nd2, hdisj⟩ := hnd
  have hc1 : c.id ∉ cs1.map (·.id) := fun hmem1 => hdisj hmem1 (List.mem_cons_self _ _)
  have hcs1 : ∀ c' ∈ cs1, c'.id ∈ u.plan_data.map (·.track_id) := by
    intro c' hc'
    apply hothers c' (by rw [hsplit]; exact List.mem_append_left _ hc')
    intro heq
    exact hc1 (heq ▸ List.mem_map_of_mem (·.id) hc')
  have hc2 : c.id ∉ cs2.map (·.id) := (List.nodup_cons.mp nd2).1
  have hcs2 : ∀ c' ∈ cs2, c'.id ∈ u.plan_data.map (·.track_id) := by
    intro c' hc'
    apply hothers c' (by rw [hsplit]; exact List.mem_append_right _ (List.mem_cons_of_mem _ hc'))
    intro heq
    exact hc2 (heq ▸ List.mem_map_of_mem (·.id) hc')
  have hfold : ∀ (acc0 : DailyStats × EntryMap), acc0.2 c.id = some T0 →
      ((cs1 ++ c :: cs2).foldl (retireStep (u.plan_data.map (·.track_id)) nowW) acc0)
        = ({ acc0.1 with
              totalDwellTimeMs := acc0.1.totalDwellTimeMs + (nowW - T0)
              completedVisits := acc0.1.completedVisits + 1 },
           fun s => if s = c.id then none else acc0.2 s) := by
    intro acc0 hacc
    rw [List.foldl_append, retireFold_all_mem _ nowW cs1 acc0 hcs1, List.foldl_cons,
        retireStep_absent habsent nowW acc0 hacc hT0,
        retireFold_all_mem _ nowW cs2 _ hcs2]
  have hem : ((u.plan_data.foldl (mergeStep st.customers nowP nowW) ([], st.entryTimes)).2) c.id
      = some T0 :=
    mergeFold_em_some st.customers nowP nowW u.plan_data [] st.entryTimes c.id T0 hentry
  refine ⟨?_, ?_, ?_⟩
  · rw [processWebSocketData_stats, hsplit] at *
    rw [hfold _ hem]
    simp [updateStats]
  · rw [processWebSocketData_stats, hsplit] at *
    rw [hfold _ hem]
    simp [updateStats]
  · rw [processWebSocketData_ids]
    exact habsent

/-- A live customer created from the record `pA` (entry at perf-time 0). -/
def cA : Customer := freshCustomer pA 0

/-- A state holding the single live customer `cA` with a recorded entry time
of 50 ms for its id. -/
def stC4 : AppState :=
  { st0 with
    customers := [cA]
    entryTimes := fun s => if s = "a" then some 50 else none }

/-- An update whose people list is empty. -/
def uEmpty : WebSocketResponse :=
  { area := "z", entry_number := 0, short_dwell_number := 0, plan_data := [] }

/-- Witness for C4 at a concrete input: the lone customer `"a"` (entry time
50) retires at wall time 80, adding one completed visit and 30 ms of dwell. -/
theorem retirement_correct_witness :
    cA ∈ stC4.customers ∧
    (stC4.customers.map (·.id)).Nodup ∧
    stC4.entryTimes cA.id = some 50 ∧
    (50 : ℕ) ≠ 0 ∧
    cA.id ∉ uEmpty.plan_data.map (·.track_id) ∧
    (processWebSocketData uEmpty 0 80 stC4).stats.completedVisits
      = stC4.stats.completedVisits + 1 ∧
    (processWebSocketData uEmpty 0 80 stC4).stats.totalDwellTimeMs
      = stC4.stats.totalDwellTimeMs + (80 - 50) := by
  have hmem : cA ∈ stC4.customers := List.mem_singleton.mpr rfl
  have hnodup : (stC4.customers.map (·.id)).Nodup := by decide
  have hentry : stC4.entryTimes cA.id = some 50 := rfl
  have habsent : cA.id ∉ uEmpty.plan_data.map (·.track_id) := by decide
  have hothers : ∀ c' ∈ stC4.customers, c'.id ≠ cA.id →
      c'.id ∈ uEmpty.plan_data.map (·.track_id) :=
    fun c' hc' hne => absurd (congrArg Customer.id (List.mem_singleton.mp hc')) hne
  obtain ⟨h1, h2, -⟩ :=
    retirement_correct stC4 uEmpty 0 80 cA 50 hmem hnodup hentry (by decide) habsent hothers
  exact ⟨hmem, hnodup, hentry, by decide, habsent, h1, h2⟩

/-! ## Facility switch -/

/-- An update announcing the single person `pA`. -/
def uA : WebSocketResponse :=
  { area := "z", entry_number := 1, short_dwell_number := 0, plan_data := [pA] }

/-- The state reached by: person `"a"` appears at wall time 100, the facility
is switched, then person `"a"` appears again at wall time 200. -/
def stC9 : AppState :=
  processWebSocketData uA 0 200
    (switchStore (processWebSocketData uA 0 100 st0) ⟨"coldroom2", 1118, 690⟩)

/-- **C9 counterexample**: the facility switch does not clear the entry-time
map — an id first seen (at wall time 100) before the switch that reappears
after it (at wall time 200) keeps its pre-switch entry timestamp 100 instead
of getting a fresh one. -/
theorem stale_entry_time_after_switch :
    stC9.entryTimes "a" = some 100 ∧ (100 : ℕ) ≠ 200 :=
  ⟨rfl, by decide⟩

/-- **C9 (amended)**: a facility switch discards and reinitializes the heatmap
accumulator (all cells 0) and the live entity set (empty), but the per-id
entry-time map survives the switch: a recorded entry time is still visible to
any later merge, so a reappearing id retains its pre-switch entry
timestamp. -/
theorem switch_resets_but_keeps_entry_times (st : AppState) (ns : StoreConfig)
    (uid : String) (T : ℕ) (hT : st.entryTimes uid = some T)
    (u : WebSocketResponse) (nowP : ℚ) (nowW : ℕ) :
    (switchStore st ns).customers = [] ∧
    (∀ i, (switchStore st ns).heat i = 0) ∧
    (switchStore st ns).entryTimes uid = some T ∧
    (processWebSocketData u nowP nowW (switchStore st ns)).entryTimes uid = some T := by
  refine ⟨rfl, fun i => rfl, hT, ?_⟩
  rw [processWebSocketData_entryTimes]
  exact mergeFold_em_some _ nowP nowW u.plan_data [] st.entryTimes uid T hT

/-- Witness for C9's amended theorem at a concrete input. -/
theorem switch_resets_but_keeps_entry_times_witness :
    stC4.entryTimes "a" = some 50 ∧
    (processWebSocketData uA 0 500 (switchStore stC4 ⟨"coldroom2", 1118, 690⟩)).entryTimes "a"
      = some 50 :=
  ⟨rfl,
   (switch_resets_but_keeps_entry_times stC4 ⟨"coldroom2", 1118, 690⟩ "a" 50 rfl
     uA 0 500).2.2.2⟩

/-! ## Frame effect of updating an existing entity -/

/-- **C10**: when an update's record matches an already-live entity, the merge
pushes exactly the existing record with `target`, `angle`, `age` and `state`
(set to WALKING) replaced; its display position, trail, colour, gender, id and
every other field are untouched, and its recorded entry time is unchanged by
the whole merge. -/
theorem existing_update_frame (st : AppState) (u : WebSocketResponse) (nowP : ℚ) (nowW : ℕ)
    (p : PlanData) (c : Customer)
    (hfind : st.customers.find? (fun c0 => c0.id == p.track_id) = some c)
    (hp : p ∈ u.plan_data) :
    (∀ acc : List Customer × EntryMap,
        mergeStep st.customers nowP nowW acc p = (acc.1 ++ [updateExisting c p], acc.2)) ∧
    (updateExisting c p).pos = c.pos ∧
    (updateExisting c p).path = c.path ∧
    (updateExisting c p).color = c.color ∧
    (updateExisting c p).gender = c.gender ∧
    (updateExisting c p).id = c.id ∧
    (updateExisting c p).targetId = c.targetId ∧
    (updateExisting c p).speed = c.speed ∧
    (updateExisting c p).browsingTimer = c.browsingTimer ∧
    (updateExisting c p).dwellStartTime = c.dwellStartTime ∧
    (updateExisting c p).totalStartTime = c.totalStartTime ∧
    (updateExisting c p).hasCountedForZone = c.hasCountedForZone ∧
    (updateExisting c p).target = p.position ∧
    (updateExisting c p).angle = p.heading ∧
    (updateExisting c p).age = p.age ∧
    (updateExisting c p).state = AgentState.WALKING ∧
    (processWebSocketData u nowP nowW st).entryTimes c.id = st.entryTimes c.id := by
  refine ⟨fun acc => mergeStep_existing hfind nowP nowW acc,
    rfl, rfl, rfl, rfl, rfl, rfl, rfl, rfl, rfl, rfl, rfl, rfl, rfl, rfl, rfl, ?_⟩
  have hcid : c.id = p.track_id := find?_id_eq hfind
  have hactive : c.id ∈ u.plan_data.map (·.track_id) := by
    rw [hcid]
    exact List.mem_map_of_mem (·.track_id) hp
  have hsome : (st.customers.find? (fun c0 => c0.id == c.id)).isSome = true := by
    rw [hcid, hfind]
    rfl
  rw [processWebSocketData_entryTimes, retireFold_em_mem _ nowW c.id hactive]
  exact mergeFold_em_find st.customers nowP nowW c.id hsome u.plan_data [] st.entryTimes

/-- A state holding the single live customer `cA` (id `"a"`). -/
def stC10 : AppState := { st0 with customers := [cA] }

/-- Witness for C10 at a concrete input. -/
theorem existing_update_frame_witness :
    stC10.customers.find? (fun c0 => c0.id == pA.track_id) = some cA ∧
    pA ∈ uA.plan_data ∧
    (updateExisting cA pA).pos = cA.pos ∧
    (processWebSocketData uA 0 300 stC10).entryTimes cA.id = stC10.entryTimes cA.id := by
  have h1 : stC10.customers.find? (fun c0 => c0.id == pA.track_id) = some cA := by decide
  have h2 : pA ∈ uA.plan_data := List.mem_singleton.mpr rfl
  obtain ⟨-, hpos, hrest⟩ := existing_update_frame stC10 uA 0 300 pA cA h1 h2
  exact ⟨h1, h2, hpos,
    hrest.2.2.2.2.2.2.2.2.2.2.2.2.2.2⟩

end RetailTwin
